import Mathlib

/-!
# TransactionShield - verification of the risk-scoring core

Shallow embedding of the repository's risk-scoring and behavioral-anomaly
subsystem (src/core/decision_policy.py, src/core/user_profile.py,
src/core/behavior_model.py, src/core/feature_extractor.py,
src/core/risk_engine.py) over exact rational arithmetic.

Conventions of the embedding:
* Python floats are modelled by `ℚ` (exact real-number semantics of the
  arithmetic the source writes down); `round(x, 3)` is modelled by
  `round3`.
* `UserProfile.amount_std` is stored by the source as
  `math.sqrt(max(0, variance))`.  We track its exact square
  `amount_std_sq = amount_std ^ 2` (a rational), which determines
  `amount_std = Real.sqrt amount_std_sq`.  Every test the source performs
  on `amount_std` is translated through this correspondence:
  `std == 0 ↔ amount_std_sq = 0`, `std > 0 ↔ 0 < amount_std_sq`, and for
  `c ≥ 0`, `|x| / std ≥ c ↔ c ^ 2 * amount_std_sq ≤ x ^ 2` (when `std > 0`).
* The per-user slice of the profile store (`UserProfileManager` cache +
  JSON file for one user id) is modelled as an `Option UserProfile`;
  `user_id`, timestamps and `TrustedLocation.added_at` do not affect any
  verified behavior and are omitted.
* A Python statement raising `IndexError`/`ValueError` is modelled by an
  explicit error constructor that carries the state as mutated up to the
  raise (matching the in-place mutation of the cached profile object /
  the policy object's attributes).
-/

namespace TransactionShield

/-- `round(q, 3)` of Python, over exact rationals: round to the nearest
multiple of 1/1000 (tie behavior is irrelevant to every claim below). -/
def round3 (q : ℚ) : ℚ := ((round (q * 1000) : ℤ) : ℚ) / 1000

lemma round3_mono {a b : ℚ} (h : a ≤ b) : round3 a ≤ round3 b := by
  unfold round3
  have h1 : a * 1000 ≤ b * 1000 := by linarith
  have h2 : round (a * 1000) ≤ round (b * 1000) := by
    rw [round_eq, round_eq]
    exact Int.floor_mono (by linarith)
  have h3 : ((round (a * 1000) : ℤ) : ℚ) ≤ ((round (b * 1000) : ℤ) : ℚ) :=
    Int.cast_le.mpr h2
  linarith

lemma round3_nonneg {a : ℚ} (h : 0 ≤ a) : 0 ≤ round3 a := by
  have h0 : round3 0 ≤ round3 a := round3_mono h
  have : round3 0 = 0 := by norm_num [round3]
  linarith

lemma round3_le_one {a : ℚ} (h : a ≤ 1) : round3 a ≤ 1 := by
  have h0 : round3 a ≤ round3 1 := round3_mono h
  have : round3 1 = 1 := by norm_num [round3]
  linarith

/-! ## DecisionPolicy (src/core/decision_policy.py) -/

/-- The `Decision` enum. -/
inductive Decision
  | ALLOW
  | DELAY
  | BLOCK
deriving DecidableEq

/-- The string value of each `Decision` enum member. -/
def Decision.value : Decision → String
  | .ALLOW => "ALLOW"
  | .DELAY => "DELAY"
  | .BLOCK => "BLOCK"

/-- The mutable attributes of a `DecisionPolicy` object. -/
structure DecisionPolicy where
  allow_threshold : ℚ
  block_threshold : ℚ
deriving DecidableEq

/-- `DecisionPolicy.__init__`: default thresholds 0.3 and 0.6. -/
def defaultPolicy : DecisionPolicy := ⟨3/10, 6/10⟩

/-- The numeric content of the `threshold_info` block produced by
`_get_threshold_info` (the `distance_to_next_level` presentation string is
a formatted rendering of these same numbers and is not modelled). -/
structure ThresholdInfo where
  current_risk : ℚ
  allow_threshold : ℚ
  block_threshold : ℚ
deriving DecidableEq

/-- The dictionary returned by `DecisionPolicy.decide`. -/
structure DecideOutput where
  decision : Decision
  risk_score : ℚ
  reasons : List String
  action : String
  threshold_info : ThresholdInfo
deriving DecidableEq

/-- `DecisionPolicy.decide` (the `reasons=None` default is the empty list). -/
def DecisionPolicy.decide (pol : DecisionPolicy) (risk_score : ℚ)
    (reasons : List String) : DecideOutput :=
  if risk_score < pol.allow_threshold then
    ⟨.ALLOW, risk_score, reasons, "Transaction approved - proceed normally",
      ⟨risk_score, pol.allow_threshold, pol.block_threshold⟩⟩
  else if risk_score < pol.block_threshold then
    ⟨.DELAY, risk_score, reasons,
      "Transaction flagged for manual review - temporary hold",
      ⟨risk_score, pol.allow_threshold, pol.block_threshold⟩⟩
  else
    ⟨.BLOCK, risk_score, reasons,
      "Transaction blocked - high fraud risk detected",
      ⟨risk_score, pol.allow_threshold, pol.block_threshold⟩⟩

/-- Outcome of a `update_thresholds` call: whether a `ValueError` was
raised, and the values of the two threshold attributes after the call
(the attributes assigned before a raise keep their new values). -/
structure ThreshUpdateResult where
  error : Bool
  state : DecisionPolicy
deriving DecidableEq

/-- Final `allow_threshold >= block_threshold` check of
`update_thresholds` (raises `ValueError` when it fails). -/
def threshFinalCheck (pol : DecisionPolicy) : ThreshUpdateResult :=
  if pol.block_threshold ≤ pol.allow_threshold then ⟨true, pol⟩ else ⟨false, pol⟩

/-- The `block_threshold` stage of `update_thresholds`: validate and
assign the optional new block threshold, then run the final check. -/
def threshApplyBlock (pol : DecisionPolicy) (block? : Option ℚ) : ThreshUpdateResult :=
  match block? with
  | some b =>
      if 0 ≤ b ∧ b ≤ 1 then threshFinalCheck ⟨pol.allow_threshold, b⟩
      else ⟨true, pol⟩
  | none => threshFinalCheck pol

/-- `DecisionPolicy.update_thresholds(allow_threshold, block_threshold)`.
The source validates and assigns `allow_threshold` first, then
`block_threshold`, then checks `allow_threshold < block_threshold`;
a `ValueError` raised at a later stage leaves earlier assignments in
place. -/
def DecisionPolicy.updateThresholds (pol : DecisionPolicy)
    (allow? block? : Option ℚ) : ThreshUpdateResult :=
  match allow? with
  | some a =>
      if 0 ≤ a ∧ a ≤ 1 then threshApplyBlock ⟨a, pol.block_threshold⟩ block?
      else ⟨true, pol⟩
  | none => threshApplyBlock pol block?

/-- An update request is invalid (per the claim): a supplied value lies
outside `[0,1]`, or applying the supplied values would leave
`allow_threshold ≥ block_threshold`. -/
def invalidThreshRequest (pol : DecisionPolicy) (allow? block? : Option ℚ) : Prop :=
  (∃ a, allow? = some a ∧ (a < 0 ∨ 1 < a)) ∨
  (∃ b, block? = some b ∧ (b < 0 ∨ 1 < b)) ∨
  (block?.getD pol.block_threshold ≤ allow?.getD pol.allow_threshold)

/-- The threshold attributes actually left behind by
`update_thresholds`: each supplied value that passes its own range check
is assigned (and persists even when a later check raises); an
out-of-range `allow` raises before `block` is examined. -/
def threshStateAfter (pol : DecisionPolicy) (allow? block? : Option ℚ) : DecisionPolicy :=
  match allow? with
  | some a =>
      if 0 ≤ a ∧ a ≤ 1 then
        match block? with
        | some b => if 0 ≤ b ∧ b ≤ 1 then ⟨a, b⟩ else ⟨a, pol.block_threshold⟩
        | none => ⟨a, pol.block_threshold⟩
      else pol
  | none =>
      match block? with
      | some b => if 0 ≤ b ∧ b ≤ 1 then ⟨pol.allow_threshold, b⟩ else pol
      | none => pol

/-! ## UserProfile / UserProfileManager (src/core/user_profile.py)

`amount_std` is represented by its exact square `amount_std_sq` (see the
header comment).  `user_id`, `created_at`, `updated_at` and
`TrustedLocation.added_at` carry no verified behavior and are omitted;
`trusted_locations` is kept as the list of location names. -/

/-- The `UserProfile` dataclass (see module header for the
`amount_std_sq` convention). -/
structure UserProfile where
  learning_enabled : Bool
  amount_mean : ℚ
  amount_std_sq : ℚ
  amount_count : ℕ
  hour_histogram : Fin 24 → ℕ
  transaction_count : ℕ
  trusted_locations : List String

/-- `UserProfile` defaults: `learning_enabled=False`, `amount_mean=5000.0`,
`amount_std=2000.0` (so `amount_std_sq = 2000² = 4000000`), zero counts,
all-zero histogram, no trusted locations. -/
def UserProfile.default : UserProfile :=
  ⟨false, 5000, 2000 ^ 2, 0, fun _ => 0, 0, []⟩

/-- Increment one bucket of the hour histogram. -/
def bumpHist (hh : Fin 24 → ℕ) (i : Fin 24) : Fin 24 → ℕ :=
  fun j => if j = i then hh j + 1 else hh j

/-- Python list indexing into a 24-element list: indices `0..23` are used
as-is, `-24..-1` address the list from the end (`hour + 24`), and anything
else raises `IndexError` (modelled by `none`). -/
def pyIndex24 (hour : ℤ) : Option (Fin 24) :=
  if h1 : 0 ≤ hour ∧ hour < 24 then some ⟨hour.toNat, by omega⟩
  else if h2 : -24 ≤ hour ∧ hour < 0 then some ⟨(hour + 24).toNat, by omega⟩
  else none

/-- The `update_baseline` block of `update_with_transaction`
(user_profile.py lines 149-162): increment `amount_count` to `n`; if
`n == 1` set `amount_mean = amount`, `amount_std = 0`; otherwise
`new_mean = old_mean + (amount - old_mean) / n` and
`new_variance = ((n-2)/(n-1)) * old_std² + (amount - old_mean)² / n`,
`amount_std = sqrt(max(0, new_variance))` - tracked as
`amount_std_sq = max 0 new_variance`. -/
def applyBaseline (p : UserProfile) (amount : ℚ) : UserProfile :=
  if p.amount_count + 1 = 1 then
    { p with
      amount_count := p.amount_count + 1,
      amount_mean := amount,
      amount_std_sq := 0 }
  else
    { p with
      amount_count := p.amount_count + 1,
      amount_mean := p.amount_mean +
        (amount - p.amount_mean) / ((p.amount_count + 1 : ℕ) : ℚ),
      amount_std_sq :=
        max 0 (((((p.amount_count + 1 : ℕ) : ℚ) - 2) / (((p.amount_count + 1 : ℕ) : ℚ) - 1))
                * p.amount_std_sq
                + (amount - p.amount_mean) ^ 2 / ((p.amount_count + 1 : ℕ) : ℚ)) }

/-- Result of `update_with_transaction` on the per-user store slice:
either the call returned normally (`ok`, with the stored profile after
the call), or `hour_histogram[hour]` raised `IndexError` (`indexError`,
with the cached profile as mutated up to the raise - the amount
statistics were already updated in place, the histogram and
`transaction_count` were not, and nothing was saved to disk but the
cache keeps the mutated object). -/
inductive UpdateResult
  | ok (after : Option UserProfile)
  | indexError (after : Option UserProfile)

/-- The per-user store slice visible after the call (cache contents). -/
def UpdateResult.afterState : UpdateResult → Option UserProfile
  | .ok s => s
  | .indexError s => s

/-- `UserProfileManager.update_with_transaction(user_id, amount, hour,
update_baseline)` acting on the per-user store slice.  Returns without
doing anything if the profile is absent or `learning_enabled` is false;
otherwise applies the baseline update (only if `update_baseline`), then
increments `hour_histogram[hour]` and `transaction_count` and saves. -/
def updateWithTransaction (s : Option UserProfile) (amount : ℚ) (hour : ℤ)
    (update_baseline : Bool) : UpdateResult :=
  match s with
  | none => .ok none
  | some p =>
      if p.learning_enabled then
        let p1 := if update_baseline then applyBaseline p amount else p
        match pyIndex24 hour with
        | some i =>
            .ok (some { p1 with
                        hour_histogram := bumpHist p1.hour_histogram i,
                        transaction_count := p1.transaction_count + 1 })
        | none => .indexError (some p1)
      else .ok (some p)

/-! ## BehaviorModel.record_transaction (src/core/behavior_model.py 203-238) -/

/-- Baseline eligibility computed by `record_transaction`: eligible
unless a profile exists with `amount_std > 0` and
`z = |amount - mean| / std ≥ 1.5`.  With `std > 0`,
`z ≥ 1.5 ↔ (3/2)² · std² ≤ (amount - mean)²`. -/
def eligibleForBaseline (s : Option UserProfile) (amount : ℚ) : Bool :=
  match s with
  | none => true
  | some p =>
      if 0 < p.amount_std_sq ∧
         (3/2) ^ 2 * p.amount_std_sq ≤ (amount - p.amount_mean) ^ 2 then
        false
      else true

/-- `BehaviorModel.record_transaction`: compute eligibility, then
delegate to `update_with_transaction` with that flag. -/
def recordTransaction (s : Option UserProfile) (amount : ℚ) (hour : ℤ) : UpdateResult :=
  updateWithTransaction s amount hour (eligibleForBaseline s amount)

/-- Feed a list of amounts one at a time through `record_transaction`
(all at the same hour), following the store slice through each call. -/
def recordMany : Option UserProfile → List ℚ → ℤ → Option UserProfile
  | s, [], _ => s
  | s, a :: rest, h => recordMany (recordTransaction s a h).afterState rest h

/-- Every amount of the list is baseline-eligible at the moment it is
fed (eligibility judged against the state left by the previous calls). -/
def allEligible : Option UserProfile → List ℚ → ℤ → Bool
  | _, [], _ => true
  | s, a :: rest, h =>
      eligibleForBaseline s a &&
        allEligible (recordTransaction s a h).afterState rest h

/-! ## Reference statistics (for the streaming-update claims) -/

/-- Sum of squared deviations from the arithmetic mean. -/
def sqDevSum (l : List ℚ) : ℚ :=
  (l.map (fun x => (x - l.sum / l.length) ^ 2)).sum

/-- Population variance: squared deviations divided by `n`. -/
def popVariance (l : List ℚ) : ℚ := sqDevSum l / l.length

/-- Sample (Bessel-corrected) variance: squared deviations divided by
`n - 1`; `0` for fewer than two samples. -/
def sampleVariance (l : List ℚ) : ℚ :=
  if l.length < 2 then 0 else sqDevSum l / ((l.length : ℚ) - 1)

/-! ## FeatureExtractor (src/core/feature_extractor.py) -/

/-- The transaction dictionary consumed by `FeatureExtractor.extract`,
with each field already defaulted as by the source's `.get(key, default)`
(quantifying over the structure covers every input dictionary). -/
structure FTxn where
  amount : ℚ := 0
  user_avg_amount : ℚ := 5000
  user_std_amount : ℚ := 0
  retry_count : ℕ := 0
  location_changed : Bool := false
  liveness_passed : Bool := true
  liveness_confidence : ℚ := 9/10
  hour_of_day : ℤ := 12

/-- The z-score-to-risk piecewise map of `_calculate_amount_anomaly`:
`z < 2 → (z/2)·0.3`; `2 ≤ z < 3 → 0.3 + (z-2)·0.3`;
`z ≥ 3 → min(1, 0.6 + (z-3)·0.2)`. -/
def amountRiskOfZ (z : ℚ) : ℚ :=
  if z < 2 then (z / 2) * (3/10)
  else if z < 3 then 3/10 + (z - 2) * (3/10)
  else min 1 (3/5 + (z - 3) * (1/5))

/-- The z-score computed by `_calculate_amount_anomaly`: guard
`user_avg == 0` by substituting 1; if `user_std == 0` use the ratio
surrogate (`z = 0` if `amount/avg ≤ 1`, else `z = (amount/avg - 1)·1.5`),
else `z = |amount - avg| / user_std`. -/
def calcZ (amount user_avg user_std : ℚ) : ℚ :=
  if user_std = 0 then
    if amount / (if user_avg = 0 then 1 else user_avg) ≤ 1 then 0
    else (amount / (if user_avg = 0 then 1 else user_avg) - 1) * (3/2)
  else |amount - (if user_avg = 0 then 1 else user_avg)| / user_std

/-- `FeatureExtractor._calculate_amount_anomaly(amount, user_avg,
user_std)`: the z-score mapped through `amountRiskOfZ`, rounded to 3
decimals. -/
def calcAmountAnomaly (amount user_avg user_std : ℚ) : ℚ :=
  round3 (amountRiskOfZ (calcZ amount user_avg user_std))

/-- `FeatureExtractor._calculate_behavior_anomaly(location_changed, hour)`. -/
def calcBehaviorAnomaly (location_changed : Bool) (hour : ℤ) : ℚ :=
  min 1 (round3
    ((if location_changed then 2/5 else 0) +
     (if 23 ≤ hour ∨ hour ≤ 5 then 3/10
      else if 5 < hour ∧ hour ≤ 8 then 1/10
      else 0)))

/-- `FeatureExtractor._calculate_retry_risk(retry_count)`. -/
def calcRetryRisk (retry_count : ℕ) : ℚ :=
  if retry_count = 0 then 0
  else round3 (min 1 ((retry_count : ℚ) / 5))

/-- `FeatureExtractor._calculate_liveness_risk(liveness_passed, confidence)`. -/
def calcLivenessRisk (liveness_passed : Bool) (confidence : ℚ) : ℚ :=
  if liveness_passed then round3 (1 - confidence)
  else round3 (7/10 + (1 - confidence) * (3/10))

/-- The four-feature dictionary returned by `FeatureExtractor.extract`. -/
structure Features where
  amount_anomaly : ℚ
  behavior_anomaly : ℚ
  retry_risk : ℚ
  liveness_risk : ℚ
deriving DecidableEq

/-- `FeatureExtractor.extract(transaction)`. -/
def extract (t : FTxn) : Features :=
  ⟨calcAmountAnomaly t.amount t.user_avg_amount t.user_std_amount,
   calcBehaviorAnomaly t.location_changed t.hour_of_day,
   calcRetryRisk t.retry_count,
   calcLivenessRisk t.liveness_passed t.liveness_confidence⟩

/-! ## RiskEngine (src/core/risk_engine.py) -/

/-- The `self.weights` dictionary as a lookup function: the weight of
each recognized feature key, `0` for unrecognized keys (`compute_risk`
skips unrecognized keys, i.e. adds nothing for them, and no recognized
key has weight 0, so the two encodings agree). -/
def weightOf (k : String) : ℚ :=
  if k = "amount_anomaly" then 1/5
  else if k = "behavior_anomaly" then 3/20
  else if k = "retry_risk" then 1/5
  else if k = "liveness_risk" then 3/20
  else if k = "ml_behavior_anomaly" then 3/10
  else 0

/-- `RiskEngine.compute_risk(features)` (score component): iterate the
feature dictionary - modelled as its item list, keys unique - adding
`value * weight` for recognized keys, then round to 3 decimals. -/
def computeRisk (features : List (String × ℚ)) : ℚ :=
  round3 ((features.map (fun kv => kv.2 * weightOf kv.1)).sum)

/-! ## BehaviorModel.analyze (src/core/behavior_model.py 40-201)

The computed-branch amount sub-score divides by
`amount_std = Real.sqrt amount_std_sq`, so those values live in `ℝ`
(the early-return branches, the only ones any claim evaluates, are the
rational constant 0).  Reason strings whose source interpolates
formatted numbers (`f'... {z_score:.1f} ...'`) are abstracted to fixed
strings; no claim reads a computed-branch reason. -/

/-- The transaction dictionary consumed by `BehaviorModel.analyze`, with
the source's `.get` defaults applied. -/
structure BTxn where
  amount : ℚ := 0
  hour_of_day : ℤ := 12
  current_location : Option String := none

/-- Which shape the `details.status` of the returned dictionary has:
the two neutral early returns, or the full computed analysis. -/
inductive AStatus
  | learning_disabled
  | insufficient_data
  | computed
deriving DecidableEq

/-- The dictionary returned by `BehaviorModel.analyze`:
`behavior_anomaly_score`, `explanation`, and the branch taken. -/
structure AnalyzeOutput where
  score : ℝ
  explanation : String
  status : AStatus

/-- `round(x, 3)` over `ℝ` (for the computed-branch score). -/
noncomputable def round3R (x : ℝ) : ℝ := ((round (x * 1000) : ℤ) : ℝ) / 1000

/-- `BehaviorModel._analyze_amount(amount, profile)`: neutral if
`amount_std == 0`; else `z = |amount - mean| / std` mapped by
`z ≤ 1 → 0`; `1 < z ≤ 2 → (z-1)·0.3`; `2 < z ≤ 3 → 0.3 + (z-2)·0.4`;
`z > 3 → min(1, 0.7 + (z-3)·0.3)`, rounded to 3 decimals. -/
noncomputable def analyzeAmount (amount : ℚ) (p : UserProfile) : ℝ × String :=
  if p.amount_std_sq = 0 then (0, "Amount variance not yet established")
  else
    let z : ℝ := |(amount : ℝ) - (p.amount_mean : ℝ)| / Real.sqrt (p.amount_std_sq : ℝ)
    let risk : ℝ :=
      if z ≤ 1 then 0
      else if z ≤ 2 then (z - 1) * (3/10)
      else if z ≤ 3 then 3/10 + (z - 2) * (2/5)
      else min 1 (7/10 + (z - 3) * (3/10))
    let reason : String :=
      if 2 < z then "Amount deviates strongly from the usual range"
      else "Amount is within normal range"
    (round3R risk, reason)

/-- `BehaviorModel._analyze_time(hour, profile)`: neutral if the
histogram is all zero (checked before indexing); otherwise index the
histogram Python-style (`none` models the `IndexError` raised for
`hour ∉ [-24, 23]`) and tier the bucket frequency. -/
def analyzeTime (hour : ℤ) (p : UserProfile) : Option (ℚ × String) :=
  let total : ℕ := Finset.univ.sum fun i => p.hour_histogram i
  if total = 0 then some (0, "Time pattern not yet established")
  else
    match pyIndex24 hour with
    | none => none
    | some i =>
        let freq : ℚ := (p.hour_histogram i : ℚ) / (total : ℚ)
        let risk : ℚ :=
          if 1/10 ≤ freq then 0
          else if 1/20 ≤ freq then 3/10
          else if 1/100 ≤ freq then 3/5
          else if 0 < freq then 4/5
          else 1
        let reason : String :=
          if freq < 1/20 then "Unusual transaction time"
          else "Transaction time matches typical patterns"
        some (risk, reason)

/-- `BehaviorModel._analyze_location(location, profile)`. -/
def analyzeLocation (location : Option String) (p : UserProfile) : ℚ × String :=
  match location with
  | none => (0, "Location not provided")
  | some loc =>
      if p.trusted_locations = [] then (0, "No trusted locations defined")
      else if loc ∈ p.trusted_locations then
        (0, "Transaction from trusted location: " ++ loc)
      else
        (7/10, "Transaction from untrusted location: " ++ loc)

/-- `BehaviorModel.analyze(user_id, transaction)` on the per-user store
slice.  `none` models an uncaught `IndexError` from the histogram
lookup; every other path returns the result dictionary. -/
noncomputable def analyze (s : Option UserProfile) (t : BTxn) : Option AnalyzeOutput :=
  match s with
  | none => some ⟨0, "Behavior learning not enabled for this user", .learning_disabled⟩
  | some p =>
      if p.learning_enabled = false then
        some ⟨0, "Behavior learning not enabled for this user", .learning_disabled⟩
      else if p.transaction_count < 5 then
        some ⟨0, "Insufficient data (" ++ toString p.transaction_count ++
                 "/5 transactions)", .insufficient_data⟩
      else
        match analyzeTime t.hour_of_day p with
        | none => none
        | some tm =>
            let am := analyzeAmount t.amount p
            let lo := analyzeLocation t.current_location p
            let combined : ℝ :=
              round3R (min 1 (am.1 * (1/2) + (tm.1 : ℝ) * (1/4) + (lo.1 : ℝ) * (1/4)))
            let parts : List String :=
              (if (3/10 : ℝ) < am.1 then [am.2] else []) ++
              (if (3/10 : ℚ) < tm.1 then [tm.2] else []) ++
              (if (3/10 : ℚ) < lo.1 then [lo.2] else [])
            let expl : String :=
              if parts = [] then "Transaction matches learned behavioral patterns"
              else String.intercalate "; " parts
            some ⟨combined, expl, .computed⟩

/-! ## Concrete profiles used by witnesses -/

/-- A consenting profile with no samples yet and no variance. -/
def profileFresh : UserProfile := ⟨true, 0, 0, 0, fun _ => 0, 0, []⟩

/-- A consenting profile with an established baseline:
mean 10, std 2 (std² = 4), 3 baseline samples, 3 transactions. -/
def profileVar : UserProfile := ⟨true, 10, 4, 3, fun _ => 0, 3, []⟩

/-- A profile that has not consented to learning. -/
def profileDisabled : UserProfile := ⟨false, 100, 4, 2, fun _ => 0, 3, ["home_atm"]⟩

/-! ## C5 - decision boundaries -/

/-- C5: with default thresholds, `decide` returns ALLOW exactly when
`risk < 0.3`, DELAY exactly when `0.3 ≤ risk < 0.6`, BLOCK exactly when
`risk ≥ 0.6`; `risk = 0.29999 → ALLOW`, `0.3 → DELAY`,
`0.59999 → DELAY`, `0.6 → BLOCK`; the returned record echoes the input
score (and reasons) and carries the fixed action string per label. -/
theorem decide_boundary_exactness :
    (∀ (risk : ℚ) (reasons : List String),
      ((defaultPolicy.decide risk reasons).decision = .ALLOW ↔ risk < 3/10) ∧
      ((defaultPolicy.decide risk reasons).decision = .DELAY ↔ 3/10 ≤ risk ∧ risk < 6/10) ∧
      ((defaultPolicy.decide risk reasons).decision = .BLOCK ↔ 6/10 ≤ risk) ∧
      (defaultPolicy.decide risk reasons).risk_score = risk ∧
      (defaultPolicy.decide risk reasons).reasons = reasons ∧
      ((defaultPolicy.decide risk reasons).decision = .ALLOW →
        (defaultPolicy.decide risk reasons).action =
          "Transaction approved - proceed normally") ∧
      ((defaultPolicy.decide risk reasons).decision = .DELAY →
        (defaultPolicy.decide risk reasons).action =
          "Transaction flagged for manual review - temporary hold") ∧
      ((defaultPolicy.decide risk reasons).decision = .BLOCK →
        (defaultPolicy.decide risk reasons).action =
          "Transaction blocked - high fraud risk detected")) ∧
    (defaultPolicy.decide (29999/100000) []).decision = .ALLOW ∧
    (defaultPolicy.decide (3/10) []).decision = .DELAY ∧
    (defaultPolicy.decide (59999/100000) []).decision = .DELAY ∧
    (defaultPolicy.decide (6/10) []).decision = .BLOCK := by
  refine ⟨fun risk reasons => ?_, ?_, ?_, ?_, ?_⟩
  · unfold DecisionPolicy.decide defaultPolicy
    split_ifs with h1 h2 <;>
      refine ⟨?_, ?_, ?_, rfl, rfl, ?_, ?_, ?_⟩ <;>
      simp_all <;> first | linarith | (constructor <;> linarith)
  all_goals norm_num [DecisionPolicy.decide, defaultPolicy]

/-- Witness for C5's action-string implications at a concrete input. -/
theorem decide_boundary_exactness_witness :
    (defaultPolicy.decide (1/10) []).action =
      "Transaction approved - proceed normally" :=
  ((decide_boundary_exactness.1 (1/10) []).2.2.2.2.2.1)
    (by norm_num [DecisionPolicy.decide, defaultPolicy])

/-! ## C1 - threshold updates are rejected but NOT atomically -/

/-- C1 counterexample: from the default configuration (0.3, 0.6),
`update_thresholds(allow_threshold=0.7)` raises `ValueError` (0.7 ≥ 0.6)
- yet `allow_threshold` has already been assigned 0.7, so the prior
configuration is NOT left in effect. -/
theorem updateThresholds_not_atomic :
    (defaultPolicy.updateThresholds (some (7/10)) none).error = true ∧
    (defaultPolicy.updateThresholds (some (7/10)) none).state ≠ defaultPolicy ∧
    (defaultPolicy.updateThresholds (some (7/10)) none).state.allow_threshold = 7/10 := by
  refine ⟨?_, ?_, ?_⟩ <;>
    norm_num [DecisionPolicy.updateThresholds, threshApplyBlock, threshFinalCheck,
              defaultPolicy, threshStateAfter]

/-- C1 amended: `update_thresholds` raises an error exactly on the
invalid requests (a supplied value outside `[0,1]`, or resulting
`allow_threshold ≥ block_threshold`); an out-of-range `allow` leaves the
state unchanged, but any supplied value that passed its own range check
before the failing check has already been assigned and persists
(`threshStateAfter` - the failure is not atomic). -/
theorem updateThresholds_amended (pol : DecisionPolicy) (allow? block? : Option ℚ) :
    ((pol.updateThresholds allow? block?).error = true ↔
      invalidThreshRequest pol allow? block?) ∧
    (pol.updateThresholds allow? block?).state = threshStateAfter pol allow? block? := by
  have hr : ∀ x : ℚ, ¬(0 ≤ x ∧ x ≤ 1) → x < 0 ∨ 1 < x := by
    intro x hx
    rw [not_and_or, not_le, not_le] at hx
    exact hx
  have hr2 : ∀ x : ℚ, (x < 0 ∨ 1 < x) → ¬(0 ≤ x ∧ x ≤ 1) := by
    rintro x (h | h) ⟨h0, h1⟩ <;> linarith
  rcases allow? with _ | a <;> rcases block? with _ | b <;>
    simp only [DecisionPolicy.updateThresholds, threshApplyBlock, threshFinalCheck,
      threshStateAfter, invalidThreshRequest, Option.getD_none, Option.getD_some,
      Option.some.injEq, reduceCtorEq, false_and, exists_false, false_or, or_false,
      exists_eq_left'] <;>
    split_ifs with h1 h2 h3 <;>
    refine ⟨?_, rfl⟩ <;>
    constructor
  all_goals
    first
      | (intro hx; exact rfl)
      | (intro hh; exact Bool.noConfusion hh)
      | (intro hx; first
          | exact h1
          | exact h2
          | exact h3
          | exact hr _ h1
          | exact Or.inl (hr _ h1)
          | exact Or.inr h2
          | exact Or.inr h3
          | exact Or.inr (hr _ h2)
          | exact Or.inr (Or.inl (hr _ h2))
          | exact Or.inr (Or.inr h3))
      | (rintro (hx | hx | hx) <;> first
          | exact absurd h1 (hr2 _ hx)
          | exact absurd h2 (hr2 _ hx)
          | exact absurd hx h1
          | exact absurd hx h2
          | exact absurd hx h3)
      | (rintro (hx | hx) <;> first
          | exact absurd h1 (hr2 _ hx)
          | exact absurd h2 (hr2 _ hx)
          | exact absurd hx h1
          | exact absurd hx h2
          | exact absurd hx h3)
      | (intro hx; first
          | exact absurd hx h1
          | exact absurd hx h2
          | exact absurd h1 (hr2 _ hx)
          | exact absurd h2 (hr2 _ hx))

/-! ## C4 - consent gating: no mutation without learning_enabled -/

/-- C4: for a profile with `learning_enabled = false` (and likewise for
an absent profile), `update_with_transaction` - for every amount, hour
and `update_baseline` flag - and `record_transaction` return normally
and leave the stored profile exactly as it was. -/
theorem consent_gating (p : UserProfile) (a : ℚ) (hour : ℤ) (ub : Bool)
    (hdis : p.learning_enabled = false) :
    updateWithTransaction (some p) a hour ub = .ok (some p) ∧
    updateWithTransaction none a hour ub = .ok none ∧
    recordTransaction (some p) a hour = .ok (some p) ∧
    recordTransaction none a hour = .ok none := by
  refine ⟨?_, rfl, ?_, rfl⟩ <;>
    simp [updateWithTransaction, recordTransaction, hdis]

/-- Witness for C4 at a concrete non-consenting profile. -/
theorem consent_gating_witness :
    updateWithTransaction (some profileDisabled) 50 10 true = .ok (some profileDisabled) ∧
    recordTransaction (some profileDisabled) 50 10 = .ok (some profileDisabled) :=
  ⟨(consent_gating profileDisabled 50 10 true rfl).1,
   (consent_gating profileDisabled 50 10 true rfl).2.2.1⟩

/-! ## C10 - update_with_transaction and out-of-range hours -/

/-- C10: for a consenting profile, `update_with_transaction` completes
without error for `hour ∈ [0,23]`; for `hour ≥ 24` (with
`update_baseline=True`) it raises `IndexError` only after the amount
statistics were already mutated on the cached profile (the cache is left
holding `applyBaseline p a`, whose `amount_count` has been incremented -
a partially applied update); for `hour ∈ [-24,-1]` it silently
increments the histogram bucket at index `hour + 24`. -/
theorem update_hour_totality (p : UserProfile) (a : ℚ)
    (hen : p.learning_enabled = true) :
    (∀ (hour : ℤ) (ub : Bool), 0 ≤ hour → hour < 24 →
        ∃ q, updateWithTransaction (some p) a hour ub = .ok (some q)) ∧
    (∀ hour : ℤ, 24 ≤ hour →
        updateWithTransaction (some p) a hour true =
          .indexError (some (applyBaseline p a)) ∧
        (applyBaseline p a).amount_count = p.amount_count + 1) ∧
    (∀ (hour : ℤ) (ub : Bool) (i : Fin 24), -24 ≤ hour → hour < 0 →
        (i : ℤ) = hour + 24 →
        ∃ q, updateWithTransaction (some p) a hour ub = .ok (some q) ∧
          q.hour_histogram =
            bumpHist (if ub then applyBaseline p a else p).hour_histogram i ∧
          q.transaction_count =
            (if ub then applyBaseline p a else p).transaction_count + 1) := by
  refine ⟨?_, ?_, ?_⟩
  · intro hour ub h0 h24
    have e1 : pyIndex24 hour = some ⟨hour.toNat, by omega⟩ := by
      unfold pyIndex24
      rw [dif_pos ⟨h0, h24⟩]
    refine ⟨{ (if ub then applyBaseline p a else p) with
        hour_histogram :=
          bumpHist (if ub then applyBaseline p a else p).hour_histogram
            ⟨hour.toNat, by omega⟩,
        transaction_count :=
          (if ub then applyBaseline p a else p).transaction_count + 1 }, ?_⟩
    simp [updateWithTransaction, hen, e1]
  · intro hour h24
    constructor
    · have e1 : pyIndex24 hour = none := by
        unfold pyIndex24
        rw [dif_neg (by omega), dif_neg (by omega)]
      simp [updateWithTransaction, hen, e1]
    · simp only [applyBaseline]
      split_ifs <;> rfl
  · intro hour ub i h1 h2 hi
    have hv : (hour + 24).toNat = (i : ℕ) := by omega
    have hidx : pyIndex24 hour = some i := by
      unfold pyIndex24
      rw [dif_neg (by omega), dif_pos ⟨h1, h2⟩]
      exact congrArg some (Fin.ext hv)
    refine ⟨{ (if ub then applyBaseline p a else p) with
        hour_histogram :=
          bumpHist (if ub then applyBaseline p a else p).hour_histogram i,
        transaction_count :=
          (if ub then applyBaseline p a else p).transaction_count + 1 },
      ?_, rfl, rfl⟩
    simp [updateWithTransaction, hen, hidx]

/-- Witness for C10 at a concrete consenting profile:
hour 5 succeeds, hour 30 raises after mutating `amount_count`,
hour -2 lands in bucket 22. -/
theorem update_hour_totality_witness :
    (∃ q, updateWithTransaction (some profileVar) 11 5 true = .ok (some q)) ∧
    (updateWithTransaction (some profileVar) 11 30 true =
        .indexError (some (applyBaseline profileVar 11)) ∧
      (applyBaseline profileVar 11).amount_count = profileVar.amount_count + 1) ∧
    (∃ q, updateWithTransaction (some profileVar) 11 (-2) true = .ok (some q) ∧
      q.hour_histogram = bumpHist (applyBaseline profileVar 11).hour_histogram 22 ∧
      q.transaction_count = (applyBaseline profileVar 11).transaction_count + 1) := by
  have h := update_hour_totality profileVar 11 rfl
  refine ⟨h.1 5 true (by norm_num) (by norm_num), h.2.1 30 (by norm_num), ?_⟩
  have h3 := h.2.2 (-2) true 22 (by norm_num) (by norm_num) (by decide)
  simpa using h3

/-! ## C3 - baseline eligibility gating of record_transaction -/

/-- C3: for a consenting profile with established variance
(`amount_std > 0`, i.e. `0 < amount_std_sq`), `record_transaction` with
`z ≥ 1.5` (i.e. `(3/2)² · std² ≤ (amount - mean)²`) leaves `amount_mean`,
`amount_std` and `amount_count` unchanged while still incrementing
`hour_histogram[hour]` and `transaction_count`; with `z < 1.5` (or no
established variance) the baseline statistics are updated as well
(`applyBaseline`). -/
theorem record_eligibility_gating (p : UserProfile) (a : ℚ) (hour : ℤ) (i : Fin 24)
    (hen : p.learning_enabled = true) (hi : (i : ℤ) = hour) :
    (0 < p.amount_std_sq → (3/2) ^ 2 * p.amount_std_sq ≤ (a - p.amount_mean) ^ 2 →
      recordTransaction (some p) a hour =
        .ok (some { p with
                    hour_histogram := bumpHist p.hour_histogram i,
                    transaction_count := p.transaction_count + 1 })) ∧
    ((¬ 0 < p.amount_std_sq ∨ (a - p.amount_mean) ^ 2 < (3/2) ^ 2 * p.amount_std_sq) →
      recordTransaction (some p) a hour =
        .ok (some { applyBaseline p a with
                    hour_histogram := bumpHist (applyBaseline p a).hour_histogram i,
                    transaction_count := (applyBaseline p a).transaction_count + 1 })) := by
  have hlt := i.isLt
  have h0 : 0 ≤ hour := by omega
  have h24 : hour < 24 := by omega
  have hv : hour.toNat = (i : ℕ) := by omega
  have hidx : pyIndex24 hour = some i := by
    unfold pyIndex24
    rw [dif_pos ⟨h0, h24⟩]
    exact congrArg some (Fin.ext hv)
  constructor
  · intro hs hz
    have hel : eligibleForBaseline (some p) a = false := by
      simp only [eligibleForBaseline]
      rw [if_pos ⟨hs, hz⟩]
    simp [recordTransaction, hel, updateWithTransaction, hen, hidx]
  · intro hel0
    have hel : eligibleForBaseline (some p) a = true := by
      simp only [eligibleForBaseline]
      rw [if_neg]
      rintro ⟨hs, hz⟩
      rcases hel0 with h | h
      · exact h hs
      · linarith
    simp [recordTransaction, hel, updateWithTransaction, hen, hidx]

/-- Witness for C3 at the concrete profile (mean 10, std 2):
amount 16 has z = 3 ≥ 1.5 (frame), amount 11 has z = 0.5 < 1.5 (update). -/
theorem record_eligibility_gating_witness :
    recordTransaction (some profileVar) 16 5 =
      .ok (some { profileVar with
                  hour_histogram := bumpHist profileVar.hour_histogram 5,
                  transaction_count := profileVar.transaction_count + 1 }) ∧
    recordTransaction (some profileVar) 11 5 =
      .ok (some { applyBaseline profileVar 11 with
                  hour_histogram := bumpHist (applyBaseline profileVar 11).hour_histogram 5,
                  transaction_count := (applyBaseline profileVar 11).transaction_count + 1 }) :=
  ⟨(record_eligibility_gating profileVar 16 5 5 rfl (by decide)).1
      (by norm_num [profileVar]) (by norm_num [profileVar]),
   (record_eligibility_gating profileVar 11 5 5 rfl (by decide)).2
      (Or.inr (by norm_num [profileVar]))⟩

/-! ## C8 - analyze returns neutral scores on the data-insufficiency paths -/

/-- C8: `analyze` returns score exactly 0 and never raises when the
profile is absent or has `learning_enabled = false` (with the
learning-not-enabled explanation), and likewise returns score exactly 0
with an insufficient-data explanation naming the current transaction
count when the profile exists, learning is enabled and
`transaction_count < 5`; the weighted anomaly score is computed only
when `transaction_count ≥ 5`. -/
theorem analyze_neutral_paths (s : Option UserProfile) (t : BTxn) :
    ((s = none ∨ ∃ p, s = some p ∧ p.learning_enabled = false) →
      analyze s t =
        some ⟨0, "Behavior learning not enabled for this user", .learning_disabled⟩) ∧
    (∀ p : UserProfile, s = some p → p.learning_enabled = true →
      p.transaction_count < 5 →
      analyze s t =
        some ⟨0, "Insufficient data (" ++ toString p.transaction_count ++
                 "/5 transactions)", .insufficient_data⟩) ∧
    (∀ out : AnalyzeOutput, analyze s t = some out → out.status = .computed →
      ∃ p, s = some p ∧ p.learning_enabled = true ∧ 5 ≤ p.transaction_count) := by
  rcases s with _ | p
  · refine ⟨fun _ => rfl, ?_, ?_⟩
    · intro p hp
      exact Option.noConfusion hp
    · intro out hout hst
      have hout2 : some
          (⟨0, "Behavior learning not enabled for this user",
            .learning_disabled⟩ : AnalyzeOutput) = some out := hout.symm ▸ rfl
      injection hout2 with h
      rw [← h] at hst
      exact absurd hst (by decide)
  · by_cases hen : p.learning_enabled = false
    · have heq : analyze (some p) t =
          some ⟨0, "Behavior learning not enabled for this user", .learning_disabled⟩ := by
        simp [analyze, hen]
      refine ⟨fun _ => heq, ?_, ?_⟩
      · intro q hq htrue _
        injection hq with h
        rw [← h, hen] at htrue
        exact Bool.noConfusion htrue
      · intro out hout hst
        rw [heq] at hout
        injection hout with h
        rw [← h] at hst
        exact absurd hst (by decide)
    · rw [Bool.not_eq_false] at hen
      by_cases hc : p.transaction_count < 5
      · have heq : analyze (some p) t =
            some ⟨0, "Insufficient data (" ++ toString p.transaction_count ++
                     "/5 transactions)", .insufficient_data⟩ := by
          simp [analyze, hen, hc]
        refine ⟨?_, ?_, ?_⟩
        · rintro (hnone | ⟨q, hq, hqdis⟩)
          · exact Option.noConfusion hnone
          · injection hq with h
            rw [← h, hen] at hqdis
            exact Bool.noConfusion hqdis
        · intro q hq _ _
          injection hq with h
          rw [← h]
          exact heq
        · intro out hout hst
          rw [heq] at hout
          injection hout with h
          rw [← h] at hst
          simp at hst
      · refine ⟨?_, ?_, ?_⟩
        · rintro (hnone | ⟨q, hq, hqdis⟩)
          · exact Option.noConfusion hnone
          · injection hq with h
            rw [← h, hen] at hqdis
            exact Bool.noConfusion hqdis
        · intro q hq _ hql
          injection hq with h
          rw [← h] at hql
          exact absurd hql hc
        · intro _ _ _
          exact ⟨p, rfl, hen, by omega⟩

/-- Witness for C8: absent profile, non-consenting profile, and a
consenting profile with only 3 transactions. -/
theorem analyze_neutral_paths_witness :
    analyze none ⟨50, 12, none⟩ =
      some ⟨0, "Behavior learning not enabled for this user", .learning_disabled⟩ ∧
    analyze (some profileDisabled) ⟨50, 12, none⟩ =
      some ⟨0, "Behavior learning not enabled for this user", .learning_disabled⟩ ∧
    analyze (some profileVar) ⟨50, 12, none⟩ =
      some ⟨0, "Insufficient data (" ++ toString profileVar.transaction_count ++
               "/5 transactions)", .insufficient_data⟩ :=
  ⟨(analyze_neutral_paths none ⟨50, 12, none⟩).1 (Or.inl rfl),
   (analyze_neutral_paths (some profileDisabled) ⟨50, 12, none⟩).1
      (Or.inr ⟨profileDisabled, rfl, rfl⟩),
   (analyze_neutral_paths (some profileVar) ⟨50, 12, none⟩).2.1 profileVar rfl rfl
      (by norm_num [profileVar])⟩

/-! ## C7 - weight invariant of the RiskEngine -/

lemma weightOf_amount_anomaly : weightOf "amount_anomaly" = 1/5 := by
  unfold weightOf
  rw [if_pos rfl]

lemma weightOf_behavior_anomaly : weightOf "behavior_anomaly" = 3/20 := by
  unfold weightOf
  rw [if_neg (by decide), if_pos rfl]

lemma weightOf_retry_risk : weightOf "retry_risk" = 1/5 := by
  unfold weightOf
  rw [if_neg (by decide), if_neg (by decide), if_pos rfl]

lemma weightOf_liveness_risk : weightOf "liveness_risk" = 3/20 := by
  unfold weightOf
  rw [if_neg (by decide), if_neg (by decide), if_neg (by decide), if_pos rfl]

lemma weightOf_ml_behavior_anomaly : weightOf "ml_behavior_anomaly" = 3/10 := by
  unfold weightOf
  rw [if_neg (by decide), if_neg (by decide), if_neg (by decide), if_neg (by decide),
    if_pos rfl]

lemma weightOf_overall_note : weightOf "overall_note" = 0 := by
  unfold weightOf
  rw [if_neg (by decide), if_neg (by decide), if_neg (by decide), if_neg (by decide),
    if_neg (by decide)]

/-- C7: the five feature weights (0.20, 0.15, 0.20, 0.15, 0.30) sum to
exactly 1, `compute_risk` on a map assigning the same value `v` to all
five recognized keys returns `round3 v`, and an entry whose key carries
no weight (an unrecognized key) contributes nothing to the score. -/
theorem weight_invariant :
    (weightOf "amount_anomaly" + weightOf "behavior_anomaly" + weightOf "retry_risk" +
      weightOf "liveness_risk" + weightOf "ml_behavior_anomaly" = 1) ∧
    (∀ v : ℚ,
      computeRisk
        [("amount_anomaly", v), ("behavior_anomaly", v), ("retry_risk", v),
         ("liveness_risk", v), ("ml_behavior_anomaly", v)] = round3 v) ∧
    (∀ (k : String) (v : ℚ) (fs : List (String × ℚ)), weightOf k = 0 →
      computeRisk ((k, v) :: fs) = computeRisk fs) := by
  refine ⟨?_, ?_, ?_⟩
  · rw [weightOf_amount_anomaly, weightOf_behavior_anomaly, weightOf_retry_risk,
      weightOf_liveness_risk, weightOf_ml_behavior_anomaly]
    norm_num
  · intro v
    unfold computeRisk
    congr 1
    simp only [List.map_cons, List.map_nil, List.sum_cons, List.sum_nil,
      weightOf_amount_anomaly, weightOf_behavior_anomaly, weightOf_retry_risk,
      weightOf_liveness_risk, weightOf_ml_behavior_anomaly]
    ring
  · intro k v fs hk
    unfold computeRisk
    simp [hk]

/-- Witness for C7's unrecognized-key clause at a concrete key. -/
theorem weight_invariant_witness :
    computeRisk [("overall_note", (1 : ℚ))] = computeRisk [] :=
  weight_invariant.2.2 "overall_note" 1 [] weightOf_overall_note

/-! ## Bounds of the z-score map and the features (C6, C9) -/

lemma amountRiskOfZ_nonneg {z : ℚ} (hz : 0 ≤ z) : 0 ≤ amountRiskOfZ z := by
  unfold amountRiskOfZ
  split_ifs with h1 h2
  · linarith
  · linarith
  · exact le_min (by norm_num) (by linarith)

lemma amountRiskOfZ_le_one (z : ℚ) : amountRiskOfZ z ≤ 1 := by
  unfold amountRiskOfZ
  split_ifs with h1 h2
  · linarith
  · linarith
  · exact min_le_left _ _

lemma amountRiskOfZ_mono {z1 z2 : ℚ} (h : z1 ≤ z2) :
    amountRiskOfZ z1 ≤ amountRiskOfZ z2 := by
  unfold amountRiskOfZ
  split_ifs
  all_goals first
    | linarith
    | exact le_min (by linarith) (by linarith)
    | exact min_le_min le_rfl (by linarith)

lemma calcZ_nonneg (amount user_avg user_std : ℚ) (hstd : 0 ≤ user_std) :
    0 ≤ calcZ amount user_avg user_std := by
  unfold calcZ
  split_ifs
  all_goals first
    | exact le_refl 0
    | exact div_nonneg (abs_nonneg _) hstd
    | (rename_i hratio; linarith [not_le.mp hratio])

lemma calcAmountAnomaly_mem (amount user_avg user_std : ℚ) (hstd : 0 ≤ user_std) :
    0 ≤ calcAmountAnomaly amount user_avg user_std ∧
      calcAmountAnomaly amount user_avg user_std ≤ 1 := by
  unfold calcAmountAnomaly
  exact ⟨round3_nonneg (amountRiskOfZ_nonneg (calcZ_nonneg _ _ _ hstd)),
    round3_le_one (amountRiskOfZ_le_one _)⟩

lemma calcBehaviorAnomaly_mem (lc : Bool) (hour : ℤ) :
    0 ≤ calcBehaviorAnomaly lc hour ∧ calcBehaviorAnomaly lc hour ≤ 1 := by
  unfold calcBehaviorAnomaly
  constructor
  · refine le_min (by norm_num) (round3_nonneg ?_)
    split_ifs <;> norm_num
  · exact min_le_left _ _

lemma calcRetryRisk_mem (rc : ℕ) : 0 ≤ calcRetryRisk rc ∧ calcRetryRisk rc ≤ 1 := by
  unfold calcRetryRisk
  split_ifs with h
  · norm_num
  · constructor
    · refine round3_nonneg (le_min (by norm_num) ?_)
      positivity
    · exact round3_le_one (min_le_left _ _)

lemma calcLivenessRisk_mem (lp : Bool) (conf : ℚ) (h0 : 0 ≤ conf) (h1 : conf ≤ 1) :
    0 ≤ calcLivenessRisk lp conf ∧ calcLivenessRisk lp conf ≤ 1 := by
  unfold calcLivenessRisk
  split_ifs
  · exact ⟨round3_nonneg (by linarith), round3_le_one (by linarith)⟩
  · exact ⟨round3_nonneg (by linarith), round3_le_one (by linarith)⟩

/-- The five keys carrying weight in `RiskEngine.weights`. -/
def recognizedKeys : Finset String :=
  {"amount_anomaly", "behavior_anomaly", "retry_risk", "liveness_risk",
   "ml_behavior_anomaly"}

lemma weightOf_nonneg (k : String) : 0 ≤ weightOf k := by
  unfold weightOf
  split_ifs <;> norm_num

lemma weightOf_eq_zero_of_not_mem {k : String} (hk : k ∉ recognizedKeys) :
    weightOf k = 0 := by
  unfold weightOf
  split_ifs with h1 h2 h3 h4 h5
  · subst h1; exact absurd (by decide) hk
  · subst h2; exact absurd (by decide) hk
  · subst h3; exact absurd (by decide) hk
  · subst h4; exact absurd (by decide) hk
  · subst h5; exact absurd (by decide) hk
  · rfl

lemma sum_recognized_weights : recognizedKeys.sum weightOf = 1 := by
  unfold recognizedKeys
  rw [show ({"amount_anomaly", "behavior_anomaly", "retry_risk", "liveness_risk",
      "ml_behavior_anomaly"} : Finset String) =
      insert "amount_anomaly" (insert "behavior_anomaly" (insert "retry_risk"
        (insert "liveness_risk" {"ml_behavior_anomaly"}))) from rfl]
  rw [Finset.sum_insert (by decide), Finset.sum_insert (by decide),
    Finset.sum_insert (by decide), Finset.sum_insert (by decide),
    Finset.sum_singleton]
  rw [weightOf_amount_anomaly, weightOf_behavior_anomaly, weightOf_retry_risk,
    weightOf_liveness_risk, weightOf_ml_behavior_anomaly]
  norm_num

lemma sum_weights_le_one (ks : List String) (hnodup : ks.Nodup) :
    (ks.map weightOf).sum ≤ 1 := by
  classical
  rw [← List.sum_toFinset _ hnodup]
  have h1 : ks.toFinset.sum weightOf = (ks.toFinset ∩ recognizedKeys).sum weightOf := by
    refine (Finset.sum_subset Finset.inter_subset_left ?_).symm
    intro x hx hnx
    exact weightOf_eq_zero_of_not_mem fun hf => hnx (Finset.mem_inter.mpr ⟨hx, hf⟩)
  rw [h1]
  calc (ks.toFinset ∩ recognizedKeys).sum weightOf
      ≤ recognizedKeys.sum weightOf :=
        Finset.sum_le_sum_of_subset_of_nonneg Finset.inter_subset_right
          (fun x _ _ => weightOf_nonneg x)
    _ = 1 := sum_recognized_weights

lemma computeRisk_mem (fs : List (String × ℚ)) (hnodup : (fs.map Prod.fst).Nodup)
    (hvals : ∀ kv ∈ fs, 0 ≤ kv.2 ∧ kv.2 ≤ 1) :
    0 ≤ computeRisk fs ∧ computeRisk fs ≤ 1 := by
  have hsum0 : 0 ≤ (fs.map fun kv => kv.2 * weightOf kv.1).sum := by
    refine List.sum_nonneg ?_
    intro x hx
    obtain ⟨kv, hkv, rfl⟩ := List.mem_map.mp hx
    exact mul_nonneg (hvals kv hkv).1 (weightOf_nonneg _)
  have hsum1 : (fs.map fun kv => kv.2 * weightOf kv.1).sum ≤
      (fs.map fun kv => weightOf kv.1).sum := by
    refine List.sum_le_sum ?_
    intro kv hkv
    have hv1 := (hvals kv hkv).2
    have hw := weightOf_nonneg kv.1
    nlinarith
  have hsum2 : (fs.map fun kv => weightOf kv.1).sum ≤ 1 := by
    have he : (fs.map fun kv => weightOf kv.1) = (fs.map Prod.fst).map weightOf := by
      rw [List.map_map]
      rfl
    rw [he]
    exact sum_weights_le_one _ hnodup
  exact ⟨round3_nonneg hsum0, round3_le_one (le_trans hsum1 hsum2)⟩

/-- `round3` is the identity on integer multiples of 1/1000. -/
lemma round3_thousandths (n : ℤ) : round3 ((n : ℚ) / 1000) = (n : ℚ) / 1000 := by
  unfold round3
  rw [div_mul_cancel₀ _ (by norm_num : (1000:ℚ) ≠ 0), round_intCast]

/-! ## C6 - feature and score ranges -/

/-- C6 counterexample: the claim constrains only `liveness_confidence`
and `retry_count`, but a transaction supplying a negative
`user_std_amount` (all other fields at their defaults, so
`liveness_confidence = 0.9 ∈ [0,1]` and `retry_count = 0`) makes
`amount_anomaly` negative (z = |0 - 5000| / (-1) = -5000, mapped to
-750), outside `[0,1]`. -/
theorem extract_out_of_range :
    (extract { user_std_amount := -1 }).amount_anomaly < 0 ∧
    0 ≤ ({ user_std_amount := -1 } : FTxn).liveness_confidence ∧
    ({ user_std_amount := -1 } : FTxn).liveness_confidence ≤ 1 ∧
    ({ user_std_amount := -1 } : FTxn).retry_count = 0 := by
  refine ⟨?_, by norm_num [FTxn.liveness_confidence], by norm_num [FTxn.liveness_confidence], rfl⟩
  have he : (extract { user_std_amount := -1 }).amount_anomaly =
      calcAmountAnomaly 0 5000 (-1) := rfl
  rw [he]
  have hz : calcZ 0 5000 (-1) = -5000 := by
    unfold calcZ
    rw [if_neg (by norm_num : (-1:ℚ) ≠ 0), if_neg (by norm_num : (5000:ℚ) ≠ 0)]
    rw [show |(0:ℚ) - 5000| = 5000 by rw [abs_of_nonpos (by norm_num)]; norm_num]
    norm_num
  unfold calcAmountAnomaly
  rw [hz]
  have hr : amountRiskOfZ (-5000) = -750 := by
    unfold amountRiskOfZ
    rw [if_pos (by norm_num : (-5000:ℚ) < 2)]
    norm_num
  rw [hr]
  rw [show (-750 : ℚ) = ((-750000 : ℤ) : ℚ) / 1000 by norm_num]
  rw [round3_thousandths]
  norm_num

/-- C6 amended: for every transaction whose `liveness_confidence` lies
in `[0,1]` AND whose `user_std_amount` is nonnegative (`retry_count` is
a nonnegative integer by type), all four extracted features lie in
`[0,1]`; and for every feature map (unique keys) whose values all lie in
`[0,1]`, the computed risk score lies in `[0,1]`. -/
theorem features_in_range (t : FTxn) (fs : List (String × ℚ))
    (hstd : 0 ≤ t.user_std_amount)
    (hc0 : 0 ≤ t.liveness_confidence) (hc1 : t.liveness_confidence ≤ 1)
    (hnodup : (fs.map Prod.fst).Nodup)
    (hvals : ∀ kv ∈ fs, 0 ≤ kv.2 ∧ kv.2 ≤ 1) :
    (0 ≤ (extract t).amount_anomaly ∧ (extract t).amount_anomaly ≤ 1) ∧
    (0 ≤ (extract t).behavior_anomaly ∧ (extract t).behavior_anomaly ≤ 1) ∧
    (0 ≤ (extract t).retry_risk ∧ (extract t).retry_risk ≤ 1) ∧
    (0 ≤ (extract t).liveness_risk ∧ (extract t).liveness_risk ≤ 1) ∧
    (0 ≤ computeRisk fs ∧ computeRisk fs ≤ 1) :=
  ⟨calcAmountAnomaly_mem _ _ _ hstd,
   calcBehaviorAnomaly_mem _ _,
   calcRetryRisk_mem _,
   calcLivenessRisk_mem _ _ hc0 hc1,
   computeRisk_mem fs hnodup hvals⟩

/-- A concrete transaction dictionary used by the C6 witness. -/
def demoTxn : FTxn :=
  ⟨12000, 3200, 1100, 2, true, false, 1/2, 2⟩

/-- Witness for C6 (amended) at a concrete transaction and feature map. -/
theorem features_in_range_witness :
    (0 ≤ (extract demoTxn).amount_anomaly ∧ (extract demoTxn).amount_anomaly ≤ 1) ∧
    (0 ≤ computeRisk [("amount_anomaly", 1/2), ("note", 1)] ∧
      computeRisk [("amount_anomaly", 1/2), ("note", 1)] ≤ 1) := by
  have h := features_in_range demoTxn [("amount_anomaly", 1/2), ("note", 1)]
    (by norm_num [demoTxn])
    (by norm_num [demoTxn])
    (by norm_num [demoTxn])
    (by simp)
    (by
      intro kv hkv
      simp only [List.mem_cons, List.mem_singleton, List.not_mem_nil, or_false] at hkv
      rcases hkv with rfl | rfl <;> norm_num)
  exact ⟨h.1, h.2.2.2.2⟩

/-! ## C9 - monotonicity of the amount-anomaly feature -/

/-- With positive `user_std` and the `user_avg == 0` guard not firing,
the z-score is the plain deviation ratio. -/
lemma calcZ_pos_std (amount user_avg user_std : ℚ) (havg : user_avg ≠ 0)
    (hstd : user_std ≠ 0) :
    calcZ amount user_avg user_std = |amount - user_avg| / user_std := by
  unfold calcZ
  rw [if_neg hstd, if_neg havg]

/-- C9 counterexample: at `user_avg = 0` (allowed by the claim) the
source substitutes `user_avg = 1` before computing the z-score, so the
feature is not monotone in `|amount - user_avg|`: with `std = 1`,
`|(-1) - 0| = 1 ≤ 3/2 = |3/2 - 0|` yet the feature at `3/2` (z = 1/2,
risk 0.075) is strictly below the feature at `-1` (z = 2, risk 0.3). -/
theorem amount_anomaly_not_monotone :
    |(-1 : ℚ) - 0| ≤ |(3/2 : ℚ) - 0| ∧
    calcAmountAnomaly (3/2) 0 1 < calcAmountAnomaly (-1) 0 1 := by
  constructor
  · rw [show |(-1 : ℚ) - 0| = 1 by rw [abs_of_nonpos (by norm_num)]; norm_num]
    rw [show |(3/2 : ℚ) - 0| = 3/2 by rw [abs_of_nonneg (by norm_num)]; norm_num]
    norm_num
  · have hz1 : calcZ (3/2) 0 1 = 1/2 := by
      unfold calcZ
      rw [if_neg (by norm_num : (1:ℚ) ≠ 0), if_pos rfl]
      rw [show |(3/2 : ℚ) - 1| = 1/2 by rw [abs_of_nonneg (by norm_num)]; norm_num]
      norm_num
    have hz2 : calcZ (-1) 0 1 = 2 := by
      unfold calcZ
      rw [if_neg (by norm_num : (1:ℚ) ≠ 0), if_pos rfl]
      rw [show |(-1 : ℚ) - 1| = 2 by rw [abs_of_nonpos (by norm_num)]; norm_num]
      norm_num
    unfold calcAmountAnomaly
    rw [hz1, hz2]
    have hr1 : amountRiskOfZ (1/2) = 3/40 := by
      unfold amountRiskOfZ
      rw [if_pos (by norm_num : (1/2 : ℚ) < 2)]
      norm_num
    have hr2 : amountRiskOfZ 2 = 3/10 := by
      unfold amountRiskOfZ
      rw [if_neg (by norm_num : ¬(2 : ℚ) < 2), if_pos (by norm_num : (2 : ℚ) < 3)]
      norm_num
    rw [hr1, hr2]
    rw [show (3/40 : ℚ) = ((75 : ℤ) : ℚ) / 1000 by norm_num,
      show (3/10 : ℚ) = ((300 : ℤ) : ℚ) / 1000 by norm_num,
      round3_thousandths, round3_thousandths]
    norm_num

/-- C9 amended: for every fixed `user_avg ≠ 0` (so the division-guard
substitution does not fire) and fixed `user_std > 0`, the
`amount_anomaly` feature is non-decreasing in `|amount - user_avg|`. -/
theorem amount_anomaly_monotone (user_avg user_std a1 a2 : ℚ)
    (havg : user_avg ≠ 0) (hstd : 0 < user_std)
    (hdev : |a1 - user_avg| ≤ |a2 - user_avg|) :
    calcAmountAnomaly a1 user_avg user_std ≤ calcAmountAnomaly a2 user_avg user_std := by
  unfold calcAmountAnomaly
  rw [calcZ_pos_std _ _ _ havg (ne_of_gt hstd), calcZ_pos_std _ _ _ havg (ne_of_gt hstd)]
  refine round3_mono (amountRiskOfZ_mono ?_)
  gcongr

/-- Witness for C9 (amended) at concrete inputs. -/
theorem amount_anomaly_monotone_witness :
    calcAmountAnomaly 11 10 1 ≤ calcAmountAnomaly 13 10 1 :=
  amount_anomaly_monotone 10 1 11 13 (by norm_num) (by norm_num)
    (by
      rw [show |(11 : ℚ) - 10| = 1 by rw [abs_of_nonneg (by norm_num)]; norm_num]
      rw [show |(13 : ℚ) - 10| = 3 by rw [abs_of_nonneg (by norm_num)]; norm_num]
      norm_num)

/-! ## C2 - streaming statistics of the baseline update -/

lemma list_sum_sq_shift (l : List ℚ) (c : ℚ) :
    (l.map (fun x => (x - c) ^ 2)).sum =
      (l.map (fun x => x ^ 2)).sum - 2 * c * l.sum + l.length * c ^ 2 := by
  induction l with
  | nil => simp
  | cons x l ih =>
      simp only [List.map_cons, List.sum_cons, List.length_cons, ih]
      push_cast
      ring

lemma sqDevSum_eq (l : List ℚ) (h : l ≠ []) :
    sqDevSum l = (l.map (fun x => x ^ 2)).sum - l.sum ^ 2 / l.length := by
  have hk : (l.length : ℚ) ≠ 0 := by
    have := List.length_pos.mpr h
    exact Nat.cast_ne_zero.mpr (by omega)
  unfold sqDevSum
  rw [list_sum_sq_shift]
  field_simp
  ring

lemma sqDevSum_nonneg (l : List ℚ) : 0 ≤ sqDevSum l := by
  refine List.sum_nonneg ?_
  intro x hx
  obtain ⟨y, hy, rfl⟩ := List.mem_map.mp hx
  positivity

lemma sampleVariance_nonneg (l : List ℚ) : 0 ≤ sampleVariance l := by
  unfold sampleVariance
  split_ifs with h
  · exact le_refl 0
  · refine div_nonneg (sqDevSum_nonneg l) ?_
    have : (2:ℚ) ≤ (l.length:ℚ) := by exact_mod_cast (by omega : 2 ≤ l.length)
    linarith

/-- One step of the source's variance recurrence
`new_variance = ((n-2)/(n-1))·old_variance + (amount - old_mean)²/n`
(with `n = k+1` samples after the step, clamped at 0) carries the sample
variance of `prev` to the sample variance of `prev ++ [a]`. -/
lemma sampleVariance_step (prev : List ℚ) (a : ℚ) (hne : prev ≠ []) :
    max 0 ((((prev.length : ℚ) + 1 - 2) / ((prev.length : ℚ) + 1 - 1)) * sampleVariance prev
      + (a - prev.sum / prev.length) ^ 2 / ((prev.length : ℚ) + 1)) =
    sampleVariance (prev ++ [a]) := by
  have hk1 : 1 ≤ prev.length := List.length_pos.mpr hne
  have hkQ : (prev.length : ℚ) ≠ 0 := Nat.cast_ne_zero.mpr (by omega)
  have hk1Q : (prev.length : ℚ) + 1 ≠ 0 := by positivity
  have hRHS : sampleVariance (prev ++ [a]) =
      ((prev.map (fun x => x ^ 2)).sum + a ^ 2 -
        (prev.sum + a) ^ 2 / ((prev.length : ℚ) + 1)) / (prev.length : ℚ) := by
    unfold sampleVariance
    rw [if_neg (by simp; omega)]
    rw [sqDevSum_eq _ (by simp)]
    simp only [List.length_append, List.sum_append, List.map_append,
      List.length_singleton, List.map_cons, List.map_nil, List.sum_cons, List.sum_nil]
    push_cast
    rw [show ((prev.length : ℚ) + 1 - 1) = (prev.length : ℚ) by ring]
    field_simp
  have hnn : 0 ≤ sampleVariance (prev ++ [a]) := sampleVariance_nonneg _
  have heq : (((prev.length : ℚ) + 1 - 2) / ((prev.length : ℚ) + 1 - 1)) * sampleVariance prev
      + (a - prev.sum / prev.length) ^ 2 / ((prev.length : ℚ) + 1) =
      sampleVariance (prev ++ [a]) := by
    rw [hRHS]
    rcases Nat.lt_or_ge prev.length 2 with h2 | h2
    · have hk : prev.length = 1 := by omega
      obtain ⟨x, rfl⟩ := List.length_eq_one.mp hk
      have hV : sampleVariance [x] = 0 := by
        unfold sampleVariance
        rw [if_pos (by simp)]
      rw [hV]
      simp only [List.length_singleton, List.sum_cons, List.sum_nil,
        List.map_cons, List.map_nil]
      push_cast
      ring
    · have hVp : sampleVariance prev =
          ((prev.map (fun x => x ^ 2)).sum - prev.sum ^ 2 / prev.length) /
            ((prev.length : ℚ) - 1) := by
        unfold sampleVariance
        rw [if_neg (by omega)]
        rw [sqDevSum_eq _ hne]
      rw [hVp]
      have hkm1 : (prev.length : ℚ) - 1 ≠ 0 := by
        have h2Q : (2:ℚ) ≤ (prev.length : ℚ) := by exact_mod_cast h2
        intro hcon
        linarith
      field_simp
      ring
  rw [heq]
  exact max_eq_right hnn

lemma applyBaseline_enabled (p : UserProfile) (a : ℚ) :
    (applyBaseline p a).learning_enabled = p.learning_enabled := by
  unfold applyBaseline
  split_ifs <;> rfl

lemma applyBaseline_count (p : UserProfile) (a : ℚ) :
    (applyBaseline p a).amount_count = p.amount_count + 1 := by
  unfold applyBaseline
  split_ifs <;> rfl

lemma applyBaseline_mean (p : UserProfile) (a : ℚ) (hc : p.amount_count ≠ 0) :
    (applyBaseline p a).amount_mean =
      p.amount_mean + (a - p.amount_mean) / ((p.amount_count + 1 : ℕ) : ℚ) := by
  unfold applyBaseline
  rw [if_neg (by omega)]

lemma applyBaseline_std (p : UserProfile) (a : ℚ) (hc : p.amount_count ≠ 0) :
    (applyBaseline p a).amount_std_sq =
      max 0 ((((p.amount_count + 1 : ℕ) : ℚ) - 2) / (((p.amount_count + 1 : ℕ) : ℚ) - 1)
          * p.amount_std_sq
        + (a - p.amount_mean) ^ 2 / ((p.amount_count + 1 : ℕ) : ℚ)) := by
  unfold applyBaseline
  rw [if_neg (by omega)]

lemma mean_step (S : ℚ) (k : ℕ) (a : ℚ) (hk : k ≠ 0) :
    S / k + (a - S / k) / ((k : ℚ) + 1) = (S + a) / ((k : ℚ) + 1) := by
  have hkQ : (k : ℚ) ≠ 0 := Nat.cast_ne_zero.mpr hk
  have hk1 : (k : ℚ) + 1 ≠ 0 := by positivity
  field_simp
  ring

/-- Fold invariant: once the profile holds exactly the statistics of a
nonempty sample list `prev` (count, mean, sample variance), feeding any
further all-eligible amounts through `record_transaction` keeps it
holding the statistics of the extended list. -/
lemma recordMany_stats (h : ℤ) (h0 : 0 ≤ h) (h24 : h < 24) (l : List ℚ) :
    ∀ (prev : List ℚ) (p : UserProfile),
      p.learning_enabled = true →
      prev ≠ [] →
      p.amount_count = prev.length →
      p.amount_mean = prev.sum / prev.length →
      p.amount_std_sq = sampleVariance prev →
      allEligible (some p) l h = true →
      ∃ q : UserProfile,
        recordMany (some p) l h = some q ∧
          q.amount_count = (prev ++ l).length ∧
          q.amount_mean = (prev ++ l).sum / (prev ++ l).length ∧
          q.amount_std_sq = sampleVariance (prev ++ l) := by
  induction l with
  | nil =>
      intro prev p hen hne hc hm hs hel
      exact ⟨p, rfl, by simpa using hc, by simpa using hm, by simpa using hs⟩
  | cons a l ih =>
      intro prev p hen hne hc hm hs hel
      simp only [allEligible, Bool.and_eq_true] at hel
      obtain ⟨hel1, hel2⟩ := hel
      have hidx : pyIndex24 h = some ⟨h.toNat, by omega⟩ := by
        unfold pyIndex24
        rw [dif_pos ⟨h0, h24⟩]
      have hstep : recordTransaction (some p) a h =
          .ok (some { applyBaseline p a with
            hour_histogram := bumpHist (applyBaseline p a).hour_histogram
              ⟨h.toNat, by omega⟩,
            transaction_count := (applyBaseline p a).transaction_count + 1 }) := by
        unfold recordTransaction
        rw [hel1]
        simp [updateWithTransaction, hen, hidx]
      have hk0 : prev.length ≠ 0 := by
        have := List.length_pos.mpr hne
        omega
      have hcnz : p.amount_count ≠ 0 := by
        rw [hc]
        exact hk0
      refine ?_
      set q1 : UserProfile := { applyBaseline p a with
        hour_histogram := bumpHist (applyBaseline p a).hour_histogram
          ⟨h.toNat, by omega⟩,
        transaction_count := (applyBaseline p a).transaction_count + 1 } with hq1
      have hq1en : q1.learning_enabled = true := by
        show (applyBaseline p a).learning_enabled = true
        rw [applyBaseline_enabled]
        exact hen
      have hq1c : q1.amount_count = (prev ++ [a]).length := by
        show (applyBaseline p a).amount_count = _
        rw [applyBaseline_count, hc]
        simp
      have hq1m : q1.amount_mean = (prev ++ [a]).sum / (prev ++ [a]).length := by
        show (applyBaseline p a).amount_mean = _
        rw [applyBaseline_mean p a hcnz, hm, hc]
        simp only [List.sum_append, List.length_append, List.sum_cons, List.sum_nil,
          List.length_singleton]
        push_cast
        rw [add_zero]
        exact mean_step prev.sum prev.length a hk0
      have hq1s : q1.amount_std_sq = sampleVariance (prev ++ [a]) := by
        show (applyBaseline p a).amount_std_sq = _
        rw [applyBaseline_std p a hcnz, hm, hs, hc]
        push_cast
        exact sampleVariance_step prev a hne
      have hafter : (recordTransaction (some p) a h).afterState = some q1 := by
        rw [hstep]
        rfl
      rw [hafter] at hel2
      obtain ⟨q, hql, hqc, hqm, hqs⟩ :=
        ih (prev ++ [a]) q1 hq1en (by simp) hq1c hq1m hq1s hel2
      refine ⟨q, ?_, by simpa using hqc, by simpa using hqm, by simpa using hqs⟩
      simp only [recordMany]
      rw [hafter]
      exact hql

/-- C2 counterexample: from a fresh consenting profile, feeding the
baseline-eligible amounts `[1, 3]` leaves `amount_std_sq = 2` (so
`amount_std = √2`), while the population variance of `[1, 3]` is `1`
(population std `1`): the streaming update tracks the Bessel-corrected
sample variance (denominator `n - 1`), not the population variance the
claim names. -/
theorem record_not_population_std :
    (recordMany (some profileFresh) [1, 3] 12).map UserProfile.amount_std_sq = some 2 ∧
    popVariance [1, 3] = 1 ∧
    (2 : ℚ) ≠ 1 := by
  refine ⟨?_, ?_, by norm_num⟩
  · norm_num [recordMany, recordTransaction, eligibleForBaseline, updateWithTransaction,
      applyBaseline, profileFresh, pyIndex24, UpdateResult.afterState]
  · norm_num [popVariance, sqDevSum]

/-- C2 amended: feeding `n ≥ 1` baseline-eligible amounts one at a time
through `record_transaction` into a consenting profile with
`amount_count = 0` yields `amount_mean` equal to the arithmetic mean of
the fed amounts, and `amount_std` equal to their SAMPLE (Bessel-corrected,
`n - 1` denominator) standard deviation - `amount_std_sq = sampleVariance`
(0 when n = 1) - with the per-step update exactly as the claim states it;
the claim's "population standard deviation" is the only part that fails. -/
theorem record_streaming_sample_stats (p0 : UserProfile) (l : List ℚ) (h : ℤ)
    (hen : p0.learning_enabled = true) (hc0 : p0.amount_count = 0)
    (h0 : 0 ≤ h) (h24 : h < 24) (hne : l ≠ [])
    (hel : allEligible (some p0) l h = true) :
    ∃ q, recordMany (some p0) l h = some q ∧
      q.amount_count = l.length ∧
      q.amount_mean = l.sum / l.length ∧
      q.amount_std_sq = sampleVariance l := by
  obtain ⟨a, l2, rfl⟩ := List.exists_cons_of_ne_nil hne
  simp only [allEligible, Bool.and_eq_true] at hel
  obtain ⟨hel1, hel2⟩ := hel
  have hidx : pyIndex24 h = some ⟨h.toNat, by omega⟩ := by
    unfold pyIndex24
    rw [dif_pos ⟨h0, h24⟩]
  have happ : applyBaseline p0 a =
      { p0 with
        amount_count := p0.amount_count + 1,
        amount_mean := a,
        amount_std_sq := 0 } := by
    unfold applyBaseline
    rw [if_pos (by omega)]
  have hstep : recordTransaction (some p0) a h =
      .ok (some { applyBaseline p0 a with
        hour_histogram := bumpHist (applyBaseline p0 a).hour_histogram
          ⟨h.toNat, by omega⟩,
        transaction_count := (applyBaseline p0 a).transaction_count + 1 }) := by
    unfold recordTransaction
    rw [hel1]
    simp [updateWithTransaction, hen, hidx]
  set q1 : UserProfile := { applyBaseline p0 a with
    hour_histogram := bumpHist (applyBaseline p0 a).hour_histogram
      ⟨h.toNat, by omega⟩,
    transaction_count := (applyBaseline p0 a).transaction_count + 1 } with hq1
  have hq1en : q1.learning_enabled = true := by
    show (applyBaseline p0 a).learning_enabled = true
    rw [applyBaseline_enabled]
    exact hen
  have hq1c : q1.amount_count = ([a] : List ℚ).length := by
    show (applyBaseline p0 a).amount_count = _
    rw [applyBaseline_count, hc0]
    rfl
  have hq1m : q1.amount_mean = ([a] : List ℚ).sum / ([a] : List ℚ).length := by
    show (applyBaseline p0 a).amount_mean = _
    rw [happ]
    simp
  have hq1s : q1.amount_std_sq = sampleVariance [a] := by
    show (applyBaseline p0 a).amount_std_sq = _
    rw [happ]
    simp [sampleVariance]
  have hafter : (recordTransaction (some p0) a h).afterState = some q1 := by
    rw [hstep]
    rfl
  rw [hafter] at hel2
  obtain ⟨q, hql, hqc, hqm, hqs⟩ :=
    recordMany_stats h h0 h24 l2 [a] q1 hq1en (by simp) hq1c hq1m hq1s hel2
  refine ⟨q, ?_, by simpa using hqc, by simpa using hqm, by simpa using hqs⟩
  simp only [recordMany]
  rw [hafter]
  exact hql

/-- Witness for C2 (amended): the fresh profile fed `[1, 3]`. -/
theorem record_streaming_sample_stats_witness :
    ∃ q, recordMany (some profileFresh) [1, 3] 12 = some q ∧
      q.amount_count = ([1, 3] : List ℚ).length ∧
      q.amount_mean = ([1, 3] : List ℚ).sum / ([1, 3] : List ℚ).length ∧
      q.amount_std_sq = sampleVariance [1, 3] :=
  record_streaming_sample_stats profileFresh [1, 3] 12 rfl rfl (by norm_num)
    (by norm_num) (by simp)
    (by norm_num [allEligible, eligibleForBaseline, recordTransaction,
      updateWithTransaction, applyBaseline, profileFresh, pyIndex24,
      UpdateResult.afterState])

end TransactionShield
